import Mathlib

/-!
# Shallow embedding of `ex0/stream_processor.py` and `ex1/data_stream.py`

Python values appearing in records and batches are modelled by the inductive
type `Value`; Python `float` is modelled exactly by the rationals `ℚ` (all
numeric literals occurring in the repository are exactly representable).
Raised Python exceptions are modelled by `Except PyError` results; the
`ValueError` raised by each processor's `process` after a failed validation
is the spec's `ValidationError` and gets its own constructor so it can be
distinguished from the `ValueError`/`TypeError` produced by failed numeric
conversions.  Console narration strings are out of scope (per the spec), so
the f-string summaries built by the processors are modelled as a structured
`ProcResult` carrying exactly the interpolated values, wrapped by
`format_output` into a `FormattedOutput` (the "Output: " prefix wrapper).
String primitives (`split`, `strip`, `startswith`, `in`, `lower`,
`float(...)`, `int(...)`) are modelled by structurally recursive functions on
the character list of the string.
-/

/-- A Python runtime value, as far as the two modules inspect values:
`None`, `int`, `float` (modelled exactly as `ℚ`), `str`, `list`. -/
inductive Value where
  | vNone : Value
  | vInt : Int → Value
  | vFloat : ℚ → Value
  | vStr : String → Value
  | vList : List Value → Value

/-- The Python exceptions the two modules can raise.  `validationError` is
the `ValueError` raised by `process` on a failed `validate` (the spec's
`ValidationError`); `valueError`/`typeError` model failed `float`/`int`
conversions and tuple-unpacking failures; `zeroDivisionError` models
division by zero. -/
inductive PyError where
  | validationError : PyError
  | valueError : PyError
  | typeError : PyError
  | zeroDivisionError : PyError
deriving DecidableEq, Repr

/-- The whitespace characters recognised by Python's `str.split()`,
`str.strip()` and the numeric conversions (ASCII subset). -/
def isPySpace (c : Char) : Bool :=
  c = ' ' || c = '\t' || c = '\n' || c = '\r' || c = '\x0b' || c = '\x0c'

/-- Model of Python `str.strip()`: drop leading and trailing whitespace. -/
def pyStrip (s : String) : String :=
  String.mk ((((s.data.dropWhile isPySpace).reverse).dropWhile isPySpace).reverse)

/-- Split a character list at every occurrence of `sep`
(Python `str.split(sep)` semantics: empty pieces are kept). -/
def splitCharAux (sep : Char) : List Char → List Char → List (List Char)
  | [], acc => [acc.reverse]
  | c :: rest, acc =>
      if c = sep then acc.reverse :: splitCharAux sep rest []
      else splitCharAux sep rest (c :: acc)

/-- Model of Python `s.split(":")`. -/
def pySplitColon (s : String) : List String :=
  (splitCharAux ':' s.data []).map String.mk

/-- Rejoin the tail pieces of a colon split (used to model `split(":", 1)`). -/
def joinColon : List (List Char) → List Char
  | [] => []
  | [x] => x
  | x :: y :: rest => x ++ ':' :: joinColon (y :: rest)

/-- Model of Python `s.split(":", 1)` for the case handled by
`LogProcessor.process` (the pair of the text before the first `:` and the
text after it). -/
def pySplitFirstColon (s : String) : String × String :=
  match splitCharAux ':' s.data [] with
  | [] => (s, "")
  | [x] => (String.mk x, "")
  | x :: rest => (String.mk x, String.mk (joinColon rest))

/-- Model of Python `":" in s`. -/
def pyContainsColon (s : String) : Bool := s.data.contains ':'

/-- Does `pre` occur at the head of `l`? -/
def startsWithChars : List Char → List Char → Bool
  | [], _ => true
  | _ :: _, [] => false
  | p :: ps, c :: cs => p = c && startsWithChars ps cs

/-- Model of Python `s.startswith(pre)`. -/
def pyStartsWith (s pre : String) : Bool := startsWithChars pre.data s.data

/-- Does `pat` occur as a contiguous sublist of `l`? (Python `pat in s`.) -/
def hasSubChars (pat : List Char) : List Char → Bool
  | [] => pat.isEmpty
  | c :: rest => startsWithChars pat (c :: rest) || hasSubChars pat rest

/-- Model of Python `"error" in s.lower()`. -/
def containsErrorLower (s : String) : Bool :=
  hasSubChars "error".data (s.data.map Char.toLower)

/-- Numeric value of a list of decimal digit characters. -/
def digitsVal (l : List Char) : Nat :=
  l.foldl (fun a c => a * 10 + (c.toNat - 48)) 0

/-- Parse an unsigned decimal body (`digits`, `digits.digits`, `.digits`,
`digits.`) into an exact rational: `dd.ff` denotes `ddff / 10 ^ |ff|`. -/
def parseDecimalBody (body : List Char) : Option ℚ :=
  let ip := body.takeWhile (fun c => c ≠ '.')
  let rest := body.dropWhile (fun c => c ≠ '.')
  match rest with
  | [] =>
      if !ip.isEmpty && ip.all Char.isDigit then some (mkRat (digitsVal ip) 1) else none
  | _ :: frac =>
      if frac.contains '.' then none
      else if (!ip.isEmpty || !frac.isEmpty)
            && ip.all Char.isDigit && frac.all Char.isDigit then
        some (mkRat (digitsVal (ip ++ frac)) (10 ^ frac.length))
      else none

/-- Model of Python's builtin `float(s)` on a string, for plain decimal
notation (optional sign, digits, optional fraction part; whitespace is
stripped).  Exotic forms (exponents, `inf`, `nan`) do not occur in this
repository and are rejected. -/
def pyFloatOfString (s : String) : Except PyError ℚ :=
  let t := (pyStrip s).data
  let parsed : Option ℚ :=
    match t with
    | '+' :: r => parseDecimalBody r
    | '-' :: r => (parseDecimalBody r).map Neg.neg
    | r => parseDecimalBody r
  match parsed with
  | some q => .ok q
  | none => .error .valueError

/-- Model of Python's builtin `float(v)` on an arbitrary value. -/
def pyFloat : Value → Except PyError ℚ
  | .vInt n => .ok (n : ℚ)
  | .vFloat q => .ok q
  | .vStr s => pyFloatOfString s
  | .vNone => .error .typeError
  | .vList _ => .error .typeError

/-- Model of Python's builtin `int(s)` on a string (optional sign then
decimal digits, whitespace stripped; anything else raises `ValueError`). -/
def pyIntOfString (s : String) : Except PyError Int :=
  let t := (pyStrip s).data
  match t with
  | '+' :: r =>
      if !r.isEmpty && r.all Char.isDigit then .ok (digitsVal r : Int)
      else .error .valueError
  | '-' :: r =>
      if !r.isEmpty && r.all Char.isDigit then .ok (-(digitsVal r : Int))
      else .error .valueError
  | r =>
      if !r.isEmpty && r.all Char.isDigit then .ok (digitsVal r : Int)
      else .error .valueError

/-- Model of Python `a / b` on exact numbers: raises `ZeroDivisionError` on a
zero divisor. -/
def pyDiv (a b : ℚ) : Except PyError ℚ :=
  if b = 0 then .error .zeroDivisionError else .ok (a / b)

/-- Model of Python `s.split()`: split on whitespace runs, dropping empty
pieces. -/
def splitWsAux : List Char → List Char → List (List Char)
  | [], acc => if acc.isEmpty then [] else [acc.reverse]
  | c :: rest, acc =>
      if isPySpace c then
        if acc.isEmpty then splitWsAux rest []
        else acc.reverse :: splitWsAux rest []
      else splitWsAux rest (c :: acc)

def pyWords (s : String) : List String := (splitWsAux s.data []).map String.mk

section Ex0

/-! ## `ex0/stream_processor.py` -/

/-- The content of the f-string summary each processor interpolates, with
the interpolated values kept structurally (textual rendering of numbers is
console narration and out of scope). -/
inductive ProcResult where
  | numericSummary : Nat → ℚ → ℚ → ProcResult
  | textSummary : Nat → Nat → ProcResult
  | logAlert : String → String → ProcResult
deriving DecidableEq, Repr

/-- `DataProcessor.format_output`: wraps a result with the fixed
`"Output: "` prefix. -/
structure FormattedOutput where
  content : ProcResult
deriving DecidableEq, Repr

def DataProcessor.format_output (result : ProcResult) : FormattedOutput :=
  ⟨result⟩

/-- `isinstance(item, (int, float))`. -/
def Value.isNumber : Value → Bool
  | .vInt _ => true
  | .vFloat _ => true
  | _ => false

/-- `NumericProcessor.validate`: `data` is a list whose elements are all
`int` or `float`. -/
def NumericProcessor.validate : Value → Bool
  | .vList l => l.all Value.isNumber
  | _ => false

/-- The rational carried by an `int`/`float` value (only applied to
numbers). -/
def numAsRat : Value → ℚ
  | .vInt n => (n : ℚ)
  | .vFloat q => q
  | _ => 0

/-- Python `sum(data)`: a left fold of `+` starting from `0`. -/
def pySum (l : List Value) : ℚ := l.foldl (fun a v => a + numAsRat v) 0

/-- `NumericProcessor.process`: validation failure raises the spec's
`ValidationError`; otherwise `total = sum(data)`, `average = total /
len(data)` (a genuine `ZeroDivisionError` on the empty list), and the
summary is formatted. -/
def NumericProcessor.process (data : Value) : Except PyError FormattedOutput :=
  if !NumericProcessor.validate data then .error .validationError
  else
    match data with
    | .vList l =>
        let total := pySum l
        match pyDiv total (l.length : ℚ) with
        | .error e => .error e
        | .ok average =>
            .ok (DataProcessor.format_output (.numericSummary l.length total average))
    | _ => .error .validationError

/-- `TextProcessor.validate`: `data` is a string. -/
def TextProcessor.validate : Value → Bool
  | .vStr _ => true
  | _ => false

/-- `TextProcessor.process`: character count and whitespace-delimited word
count. -/
def TextProcessor.process (data : Value) : Except PyError FormattedOutput :=
  if !TextProcessor.validate data then .error .validationError
  else
    match data with
    | .vStr s =>
        .ok (DataProcessor.format_output (.textSummary s.data.length (pyWords s).length))
    | _ => .error .validationError

/-- `LogProcessor.validate`: `data` is a string containing `":"`. -/
def LogProcessor.validate : Value → Bool
  | .vStr s => pyContainsColon s
  | _ => false

/-- `LogProcessor.process`: split at the first `":"`, strip both pieces,
and format the alert summary. -/
def LogProcessor.process (data : Value) : Except PyError FormattedOutput :=
  if !LogProcessor.validate data then .error .validationError
  else
    match data with
    | .vStr s =>
        let parts := pySplitFirstColon s
        .ok (DataProcessor.format_output (.logAlert (pyStrip parts.1) (pyStrip parts.2)))
    | _ => .error .validationError

/-- The three concrete processor classes. -/
inductive ProcKind where
  | numeric | text | log
deriving DecidableEq, Repr

def procValidate : ProcKind → Value → Bool
  | .numeric => NumericProcessor.validate
  | .text => TextProcessor.validate
  | .log => LogProcessor.validate

def procProcess : ProcKind → Value → Except PyError FormattedOutput
  | .numeric => NumericProcessor.process
  | .text => TextProcessor.process
  | .log => LogProcessor.process

/-- Did `process` raise the spec's `ValidationError`? -/
def isValidationError : Except PyError FormattedOutput → Bool
  | .error .validationError => true
  | _ => false

end Ex0

section Ex1

/-! ## `ex1/data_stream.py` -/

/-- The statistics keys any of the three stream variants ever writes. -/
inductive StatKey where
  | last_batch | count | errors | average | net_flow
deriving DecidableEq, Repr

/-- A value stored in a stream's `stats` dict: an `int`, a `float`, or the
raw batch list stored under `last_batch`. -/
inductive StatVal where
  | sInt : Int → StatVal
  | sFloat : ℚ → StatVal
  | sBatch : List Value → StatVal

/-- Python-dict insertion (`d[k] = v`): overwriting an existing key keeps
its position, a new key is appended. -/
def dictInsert (d : List (StatKey × StatVal)) (k : StatKey) (v : StatVal) :
    List (StatKey × StatVal) :=
  match d with
  | [] => [(k, v)]
  | (k0, v0) :: rest =>
      if k0 = k then (k0, v) :: rest else (k0, v0) :: dictInsert rest k v

/-- Python-dict lookup (`d.get(k)`). -/
def dictGet (d : List (StatKey × StatVal)) (k : StatKey) : Option StatVal :=
  match d with
  | [] => none
  | (k0, v0) :: rest => if k0 = k then some v0 else dictGet rest k

/-- `DataStream.__init__`: a `stream_id` and a stats dict, initially empty. -/
structure StreamState where
  stream_id : String
  stats : List (StatKey × StatVal)

/-- `item is None`. -/
def Value.isVNone : Value → Bool
  | .vNone => true
  | _ => false

/-- `DataStream.filter_data`: drop `None` entries. -/
def DataStream.filter_data (data_batch : List Value) : List Value :=
  data_batch.filter (fun item => !item.isVNone)

/-- The shape test of `SensorStream.filter_data`: numeric values and
strings containing `":"` are kept. -/
def sensorKeeps : Value → Bool
  | .vInt _ => true
  | .vFloat _ => true
  | .vStr s => pyContainsColon s
  | _ => false

/-- `SensorStream.filter_data`: the generic filter, then the sensor shape
test. -/
def SensorStream.filter_data (data_batch : List Value) : List Value :=
  (DataStream.filter_data data_batch).filter sensorKeeps

/-- The conversion applied by `SensorStream.process_batch` both to each
filtered item and to the first raw element: for a string containing `":"`,
unpack `_, val = item.split(":")` (a `ValueError` unless the split has
exactly two pieces) and convert `val` with `float`; otherwise apply `float`
to the item itself. -/
def SensorStream.readValue (item : Value) : Except PyError ℚ :=
  match item with
  | .vStr s =>
      if pyContainsColon s then
        match pySplitColon s with
        | [_, val] => pyFloatOfString val
        | _ => .error .valueError
      else pyFloat (.vStr s)
  | v => pyFloat v

/-- One iteration of the `SensorStream.process_batch` loop on the
accumulator `(total, count, errors)`; a `ValueError`/`TypeError` from the
conversion is caught and counted. -/
def sensorStep (a : ℚ × Int × Int) (item : Value) : ℚ × Int × Int :=
  match SensorStream.readValue item with
  | .ok value => (a.1 + value, a.2.1 + 1, a.2.2)
  | .error _ => (a.1, a.2.1, a.2.2 + 1)

/-- `SensorStream.process_batch`.  `last_batch` is stored first; the loop
accumulates `(total, count, errors)` over the filtered items; then the
`average` is computed from `data_batch[0] if data_batch else 0` *outside*
any `try`, so a failing conversion there propagates as a raised error,
leaving `count`/`errors`/`average` unset. -/
def SensorStream.process_batch (st : StreamState) (data_batch : List Value) :
    StreamState × Option PyError :=
  let stats1 := dictInsert st.stats .last_batch (.sBatch data_batch)
  let acc := (SensorStream.filter_data data_batch).foldl sensorStep (0, 0, 0)
  match SensorStream.readValue (data_batch.headD (.vInt 0)) with
  | .error e => ({ st with stats := stats1 }, some e)
  | .ok average =>
      ({ st with stats :=
          dictInsert (dictInsert (dictInsert stats1
            .count (.sInt acc.2.1)) .errors (.sInt acc.2.2)) .average (.sFloat average) },
        none)

/-- The shape test of `TransactionStream.filter_data`, returning the kept
string: a string starting with `"buy:"` or `"sell:"`. -/
def transKeeps : Value → Option String
  | .vStr s =>
      if pyStartsWith s "buy:" || pyStartsWith s "sell:" then some s else none
  | _ => none

/-- `TransactionStream.filter_data`: the generic filter, then the
transaction shape test (the kept items are all strings). -/
def TransactionStream.filter_data (data_batch : List Value) : List String :=
  (DataStream.filter_data data_batch).filterMap transKeeps

/-- `op, val = item.split(":")` followed by `value = int(val)`: fails with
`ValueError` unless the split has exactly two pieces and `val` parses as an
integer. -/
def transParse (item : String) : Except PyError (String × Int) :=
  match pySplitColon item with
  | [op, val] =>
      match pyIntOfString val with
      | .ok value => .ok (op, value)
      | .error e => .error e
  | _ => .error .valueError

/-- One iteration of the `TransactionStream.process_batch` loop on the
accumulator `(net_flow, operations, errors)`. -/
def transStep (a : Int × Int × Int) (item : String) : Int × Int × Int :=
  match transParse item with
  | .ok (op, value) =>
      let net := if op = "buy" then a.1 + value
                 else if op = "sell" then a.1 - value else a.1
      (net, a.2.1 + 1, a.2.2)
  | .error _ => (a.1, a.2.1, a.2.2 + 1)

/-- `TransactionStream.process_batch`: never raises; all conversion errors
are caught inside the loop and counted. -/
def TransactionStream.process_batch (st : StreamState) (data_batch : List Value) :
    StreamState × Option PyError :=
  let stats1 := dictInsert st.stats .last_batch (.sBatch data_batch)
  let acc := (TransactionStream.filter_data data_batch).foldl transStep (0, 0, 0)
  ({ st with stats :=
      dictInsert (dictInsert (dictInsert stats1
        .errors (.sInt acc.2.2)) .net_flow (.sInt acc.1)) .count (.sInt acc.2.1) },
    none)

/-- The shape test of `EventStream.filter_data`: strings are kept. -/
def eventKeeps : Value → Option String
  | .vStr s => some s
  | _ => none

/-- `EventStream.filter_data`: the generic filter, then keep the strings. -/
def EventStream.filter_data (data_batch : List Value) : List String :=
  (DataStream.filter_data data_batch).filterMap eventKeeps

/-- One iteration of the `EventStream.process_batch` loop on the
accumulator `(count, errors)`. -/
def eventStep (a : Int × Int) (item : String) : Int × Int :=
  (a.1 + 1, if containsErrorLower item then a.2 + 1 else a.2)

/-- `EventStream.process_batch`: never raises. -/
def EventStream.process_batch (st : StreamState) (data_batch : List Value) :
    StreamState × Option PyError :=
  let stats1 := dictInsert st.stats .last_batch (.sBatch data_batch)
  let acc := (EventStream.filter_data data_batch).foldl eventStep (0, 0)
  ({ st with stats :=
      dictInsert (dictInsert stats1 .count (.sInt acc.1)) .errors (.sInt acc.2) },
    none)

/-- `DataStream.get_stats`: returns the stats mapping (the base-class
behaviour; the variant overrides render it into narration text, which is
out of scope). -/
def DataStream.get_stats (st : StreamState) : List (StatKey × StatVal) := st.stats

/-- The three concrete stream classes. -/
inductive StreamKind where
  | sensor | transaction | event
deriving DecidableEq, Repr

/-- Dynamic dispatch of `process_batch` on the concrete class. -/
def processBatch : StreamKind → StreamState → List Value → StreamState × Option PyError
  | .sensor => SensorStream.process_batch
  | .transaction => TransactionStream.process_batch
  | .event => EventStream.process_batch

/-- A stream instance held by the `StreamProcessor` registry: its concrete
class together with its state. -/
structure StreamObj where
  kind : StreamKind
  state : StreamState

/-- `StreamProcessor.add_stream`: append to the registry. -/
def StreamProcessor.add_stream (streams : List StreamObj) (s : StreamObj) :
    List StreamObj :=
  streams ++ [s]

/-- `data_batches.get(stream.stream_id, [])`. -/
def batchesGet (data_batches : List (String × List Value)) (k : String) :
    List Value :=
  match data_batches with
  | [] => []
  | (k0, v) :: rest => if k0 = k then v else batchesGet rest k

/-- `StreamProcessor.process_all`: run `process_batch` on each registered
stream in registration order with the batch found under its id (or `[]`).
A raised error propagates out of the loop: the remaining streams keep
their states untouched and are never invoked. -/
def StreamProcessor.process_all (streams : List StreamObj)
    (data_batches : List (String × List Value)) : List StreamObj × Option PyError :=
  match streams with
  | [] => ([], none)
  | s :: rest =>
      let r := processBatch s.kind s.state (batchesGet data_batches s.state.stream_id)
      match r.2 with
      | some e => (⟨s.kind, r.1⟩ :: rest, some e)
      | none =>
          let rr := StreamProcessor.process_all rest data_batches
          (⟨s.kind, r.1⟩ :: rr.1, rr.2)

end Ex1

/-- Did an `Except` computation succeed? -/
def exceptOk {ε α : Type} : Except ε α → Bool
  | .ok _ => true
  | .error _ => false

/-- Did `transParse` succeed on this kept item? -/
def transParseOk (s : String) : Bool := exceptOk (transParse s)

/-- The total transaction value carried by the kept items whose operation
parses to `op` ("buy" or "sell"). -/
def opTotal (op : String) (l : List String) : Int :=
  (l.map fun s =>
    match transParse s with
    | .ok (o, n) => if o = op then n else 0
    | .error _ => 0).sum

/-- The sensor demonstration batch of the `__main__` block. -/
def demoSensorBatch : List Value :=
  [.vStr "temp:22.5", .vStr "humidity:65", .vStr "pressure:1013"]

/-- The transaction demonstration batch of the `__main__` block. -/
def demoTransBatch : List Value :=
  [.vStr "buy:100", .vStr "sell:150", .vStr "buy:75"]

/-! ## Helper lemmas -/

theorem dictGet_insert_same (d : List (StatKey × StatVal)) (k : StatKey) (v : StatVal) :
    dictGet (dictInsert d k v) k = some v := by
  induction d with
  | nil => simp [dictInsert, dictGet]
  | cons hd t ih =>
      obtain ⟨k0, v0⟩ := hd
      by_cases hk : k0 = k
      · simp [dictInsert, dictGet, hk]
      · simp [dictInsert, dictGet, hk, ih]

theorem dictGet_insert_other (d : List (StatKey × StatVal)) {k1 k2 : StatKey}
    (h : k1 ≠ k2) (v : StatVal) :
    dictGet (dictInsert d k1 v) k2 = dictGet d k2 := by
  induction d with
  | nil => simp [dictInsert, dictGet, fun hh => h hh]
  | cons hd t ih =>
      obtain ⟨k0, v0⟩ := hd
      by_cases hk : k0 = k1
      · subst hk
        simp [dictInsert, dictGet, h]
      · simp [dictInsert, dictGet, hk, ih]

theorem foldl_add_numAsRat (l : List Value) (a : ℚ) :
    l.foldl (fun a v => a + numAsRat v) a = a + (l.map numAsRat).sum := by
  induction l generalizing a with
  | nil => simp
  | cons x t ih => simp [ih, add_assoc]

theorem pySum_eq (l : List Value) : pySum l = (l.map numAsRat).sum := by
  simpa [pySum] using foldl_add_numAsRat l 0

theorem numeric_process_of_invalid (d : Value)
    (h : NumericProcessor.validate d = false) :
    NumericProcessor.process d = .error .validationError := by
  simp [NumericProcessor.process, h]

theorem numeric_process_ok (x : Value) (xs : List Value)
    (h : NumericProcessor.validate (.vList (x :: xs)) = true) :
    NumericProcessor.process (.vList (x :: xs)) =
      .ok (DataProcessor.format_output (.numericSummary (x :: xs).length
        (pySum (x :: xs)) (pySum (x :: xs) / ((x :: xs).length : ℚ)))) := by
  have hlen : ((xs.length : ℚ) + 1) ≠ 0 := by positivity
  simp [NumericProcessor.process, h, pyDiv, hlen]

theorem log_process_of_contains (s : String) (h : pyContainsColon s = true) :
    LogProcessor.process (.vStr s) =
      .ok (DataProcessor.format_output (.logAlert (pyStrip (pySplitFirstColon s).1)
        (pyStrip (pySplitFirstColon s).2))) := by
  simp [LogProcessor.process, LogProcessor.validate, h]

/-! ## Claims -/

/-- C1 (counterexample): the claim "whenever `validate(record)` is true,
`process(record)` returns a text result without raising any error" fails on
`NumericProcessor` at the empty list: `validate([])` is true (every element
of the empty list is numeric) yet `process([])` raises a
`ZeroDivisionError` from `total / len(data)`. -/
theorem claim_C1_counterexample :
    NumericProcessor.validate (.vList []) = true ∧
    NumericProcessor.process (.vList []) = .error .zeroDivisionError :=
  ⟨rfl, rfl⟩

/-- C1 (amended): for every processor variant and every input, `process`
raises the spec's `ValidationError` exactly when `validate` is false
(`validate` itself is a total boolean function by construction); and
whenever `validate` is true, `process` returns a result without raising —
except for `NumericProcessor` on the empty list, where `process` raises a
`ZeroDivisionError` instead. -/
theorem claim_C1_amended (p : ProcKind) (d : Value) :
    isValidationError (procProcess p d) = !procValidate p d ∧
    (procValidate p d = true →
      (p = .numeric ∧ d = .vList []) ∨ ∃ out, procProcess p d = .ok out) := by
  cases p with
  | numeric =>
      by_cases hv : NumericProcessor.validate d = true
      · cases d with
        | vList l =>
            cases l with
            | nil =>
                exact ⟨rfl, fun _ => Or.inl ⟨rfl, rfl⟩⟩
            | cons x xs =>
                have hp := numeric_process_ok x xs hv
                refine ⟨?_, fun _ => Or.inr ⟨_, hp⟩⟩
                simp [procProcess, procValidate, hp, isValidationError, hv]
        | vNone => simp [NumericProcessor.validate] at hv
        | vInt n => simp [NumericProcessor.validate] at hv
        | vFloat q => simp [NumericProcessor.validate] at hv
        | vStr s => simp [NumericProcessor.validate] at hv
      · have hv' : NumericProcessor.validate d = false := by
          simpa using hv
        have hp := numeric_process_of_invalid d hv'
        refine ⟨?_, fun hc => absurd hc hv⟩
        simp [procProcess, procValidate, hp, isValidationError, hv']
  | text =>
      cases d with
      | vStr s =>
          exact ⟨rfl, fun _ => Or.inr ⟨_, rfl⟩⟩
      | vNone => exact ⟨rfl, fun hc => by simp [procValidate, TextProcessor.validate] at hc⟩
      | vInt n => exact ⟨rfl, fun hc => by simp [procValidate, TextProcessor.validate] at hc⟩
      | vFloat q => exact ⟨rfl, fun hc => by simp [procValidate, TextProcessor.validate] at hc⟩
      | vList l => exact ⟨rfl, fun hc => by simp [procValidate, TextProcessor.validate] at hc⟩
  | log =>
      cases d with
      | vStr s =>
          by_cases hc : pyContainsColon s = true
          · have hp := log_process_of_contains s hc
            refine ⟨?_, fun _ => Or.inr ⟨_, hp⟩⟩
            simp [procProcess, procValidate, LogProcessor.validate, hp, isValidationError, hc]
          · have hc' : pyContainsColon s = false := by simpa using hc
            refine ⟨?_, fun hcc => ?_⟩
            · simp [procProcess, procValidate, LogProcessor.process, LogProcessor.validate,
                hc', isValidationError]
            · simp [procValidate, LogProcessor.validate, hc'] at hcc
      | vNone => exact ⟨rfl, fun hcc => by simp [procValidate, LogProcessor.validate] at hcc⟩
      | vInt n => exact ⟨rfl, fun hcc => by simp [procValidate, LogProcessor.validate] at hcc⟩
      | vFloat q => exact ⟨rfl, fun hcc => by simp [procValidate, LogProcessor.validate] at hcc⟩
      | vList l => exact ⟨rfl, fun hcc => by simp [procValidate, LogProcessor.validate] at hcc⟩

/-- C1 (witness): the amended claim at `TextProcessor` on `"Hello Nexus World"`. -/
theorem claim_C1_witness :
    isValidationError (procProcess .text (.vStr "Hello Nexus World")) =
      !procValidate .text (.vStr "Hello Nexus World") ∧
    ((ProcKind.text = .numeric ∧ Value.vStr "Hello Nexus World" = .vList []) ∨
      ∃ out, procProcess .text (.vStr "Hello Nexus World") = .ok out) :=
  ⟨(claim_C1_amended .text (.vStr "Hello Nexus World")).1,
   (claim_C1_amended .text (.vStr "Hello Nexus World")).2 rfl⟩

/-- C3: for every non-empty sequence of numbers, `NumericProcessor.process`
returns a summary whose reported sum is the direct sum of the elements and
whose reported average is that sum divided by the number of elements.
(On the empty sequence no summary is returned: `process` raises a
`ZeroDivisionError`, cf. C1.) -/
theorem claim_C3 (l : List Value) (hv : NumericProcessor.validate (.vList l) = true)
    (hne : l ≠ []) :
    NumericProcessor.process (.vList l) =
      .ok (DataProcessor.format_output (.numericSummary l.length
        ((l.map numAsRat).sum) ((l.map numAsRat).sum / (l.length : ℚ)))) := by
  cases l with
  | nil => exact absurd rfl hne
  | cons x xs =>
      rw [numeric_process_ok x xs hv, pySum_eq]

/-- C3 (witness): the demonstration list `[1, 2, 3, 4, 5]` gives sum `15`
and average `3`. -/
theorem claim_C3_witness :
    NumericProcessor.process (.vList [.vInt 1, .vInt 2, .vInt 3, .vInt 4, .vInt 5]) =
      .ok (DataProcessor.format_output (.numericSummary 5 15 3)) := by
  have h := claim_C3 [.vInt 1, .vInt 2, .vInt 3, .vInt 4, .vInt 5] rfl
    (List.cons_ne_nil _ _)
  rw [h]
  norm_num [numAsRat]

/-- C9: `SensorStream.process_batch` on the empty batch succeeds without
raising and sets `count = 0`, `errors = 0` and `average = 0.0` (the first
element used for the average defaults to the integer `0`). -/
theorem claim_C9 :
    SensorStream.process_batch ⟨"SENSOR_001", []⟩ [] =
      (⟨"SENSOR_001",
        [(.last_batch, .sBatch []), (.count, .sInt 0), (.errors, .sInt 0),
         (.average, .sFloat 0)]⟩,
       none) := rfl

/-- C10: for every stream variant and every batch, `process_batch` leaves
the `stream_id` field unchanged — it only modifies the `stats` mapping
(`filter_data` and `get_stats` are modelled as pure functions of the state,
so they cannot modify it at all). -/
theorem claim_C10 (k : StreamKind) (st : StreamState) (batch : List Value) :
    (processBatch k st batch).1.stream_id = st.stream_id := by
  cases k with
  | sensor =>
      simp only [processBatch, SensorStream.process_batch]
      cases SensorStream.readValue (batch.headD (.vInt 0)) <;> rfl
  | transaction => rfl
  | event => rfl

/-- C7: `LogProcessor.validate` is true exactly on strings containing
`":"`; on such a record `process` splits at the first `":"`, strips both
pieces, and returns the alert summary carrying them; `"WARN: disk full"`
yields level `WARN` and body `disk full`, and text without `":"` raises
`ValidationError`. -/
theorem claim_C7 :
    (∀ d : Value, LogProcessor.validate d = true ↔
      ∃ s, d = .vStr s ∧ pyContainsColon s = true) ∧
    (∀ s : String, pyContainsColon s = true →
      LogProcessor.process (.vStr s) =
        .ok (DataProcessor.format_output (.logAlert (pyStrip (pySplitFirstColon s).1)
          (pyStrip (pySplitFirstColon s).2)))) ∧
    LogProcessor.process (.vStr "WARN: disk full") =
      .ok (DataProcessor.format_output (.logAlert "WARN" "disk full")) ∧
    (∀ s : String, pyContainsColon s = false →
      LogProcessor.process (.vStr s) = .error .validationError) := by
  refine ⟨fun d => ?_, fun s h => log_process_of_contains s h, rfl, fun s h => ?_⟩
  · cases d <;> simp [LogProcessor.validate]
  · simp [LogProcessor.process, LogProcessor.validate, h]

/-- C7 (witness): the split-and-strip equation instantiated at
`"WARN: disk full"`. -/
theorem claim_C7_witness :
    LogProcessor.validate (.vStr "WARN: disk full") = true ∧
    LogProcessor.process (.vStr "WARN: disk full") =
      .ok (DataProcessor.format_output
        (.logAlert (pyStrip (pySplitFirstColon "WARN: disk full").1)
          (pyStrip (pySplitFirstColon "WARN: disk full").2))) :=
  ⟨rfl, claim_C7.2.1 "WARN: disk full" rfl⟩

@[simp] theorem exceptOk_ok {ε α : Type} (a : α) :
    exceptOk (Except.ok a : Except ε α) = true := rfl

@[simp] theorem exceptOk_error {ε α : Type} (e : ε) :
    exceptOk (Except.error e : Except ε α) = false := rfl

@[simp] theorem isVNone_vNone : Value.isVNone .vNone = true := rfl

@[simp] theorem isVNone_vInt (n : Int) : Value.isVNone (.vInt n) = false := rfl

@[simp] theorem isVNone_vFloat (q : ℚ) : Value.isVNone (.vFloat q) = false := rfl

@[simp] theorem isVNone_vStr (s : String) : Value.isVNone (.vStr s) = false := rfl

@[simp] theorem isVNone_vList (l : List Value) : Value.isVNone (.vList l) = false := rfl

theorem sensor_foldl (l : List Value) (a : ℚ × Int × Int) :
    (l.foldl sensorStep a).2.1 =
      a.2.1 + (l.countP fun v => exceptOk (SensorStream.readValue v) : ℕ) ∧
    (l.foldl sensorStep a).2.2 =
      a.2.2 + (l.countP fun v => !exceptOk (SensorStream.readValue v) : ℕ) := by
  induction l generalizing a with
  | nil => simp
  | cons x t ih =>
      have hfold : List.foldl sensorStep a (x :: t) =
          List.foldl sensorStep (sensorStep a x) t := rfl
      cases h : SensorStream.readValue x with
      | ok q =>
          have hsx : sensorStep a x = (a.1 + q, a.2.1 + 1, a.2.2) := by
            rw [sensorStep, h]
          obtain ⟨ih1, ih2⟩ := ih (a.1 + q, a.2.1 + 1, a.2.2)
          have hc1 : ((x :: t).countP fun v => exceptOk (SensorStream.readValue v)) =
              (t.countP fun v => exceptOk (SensorStream.readValue v)) + 1 := by
            simp [List.countP_cons, h]
          have hc2 : ((x :: t).countP fun v => !exceptOk (SensorStream.readValue v)) =
              t.countP fun v => !exceptOk (SensorStream.readValue v) := by
            simp [List.countP_cons, h]
          rw [hfold, hsx, hc1, hc2]
          refine ⟨ih1.trans ?_, ih2⟩
          push_cast
          ring
      | error e =>
          have hsx : sensorStep a x = (a.1, a.2.1, a.2.2 + 1) := by
            rw [sensorStep, h]
          obtain ⟨ih1, ih2⟩ := ih (a.1, a.2.1, a.2.2 + 1)
          have hc1 : ((x :: t).countP fun v => exceptOk (SensorStream.readValue v)) =
              t.countP fun v => exceptOk (SensorStream.readValue v) := by
            simp [List.countP_cons, h]
          have hc2 : ((x :: t).countP fun v => !exceptOk (SensorStream.readValue v)) =
              (t.countP fun v => !exceptOk (SensorStream.readValue v)) + 1 := by
            simp [List.countP_cons, h]
          rw [hfold, hsx, hc1, hc2]
          refine ⟨ih1, ih2.trans ?_⟩
          push_cast
          ring

theorem trans_foldl (l : List String) (a : Int × Int × Int) :
    (l.foldl transStep a).1 = a.1 + opTotal "buy" l - opTotal "sell" l ∧
    (l.foldl transStep a).2.1 = a.2.1 + (l.countP transParseOk : ℕ) ∧
    (l.foldl transStep a).2.2 = a.2.2 + (l.countP (fun s => !transParseOk s) : ℕ) := by
  induction l generalizing a with
  | nil => simp [opTotal]
  | cons x t ih =>
      have hfold : List.foldl transStep a (x :: t) =
          List.foldl transStep (transStep a x) t := rfl
      cases h : transParse x with
      | ok r =>
          obtain ⟨op, value⟩ := r
          have hc1 : (x :: t).countP transParseOk = t.countP transParseOk + 1 := by
            simp [List.countP_cons, transParseOk, h]
          have hc2 : ((x :: t).countP fun s => !transParseOk s) =
              t.countP fun s => !transParseOk s := by
            simp [List.countP_cons, transParseOk, h]
          by_cases hb : op = "buy"
          · subst hb
            have hsx : transStep a x = (a.1 + value, a.2.1 + 1, a.2.2) := by
              simp [transStep, h]
            have hbuy : opTotal "buy" (x :: t) = value + opTotal "buy" t := by
              simp [opTotal, h]
            have hsell : opTotal "sell" (x :: t) = opTotal "sell" t := by
              simp [opTotal, h]
            obtain ⟨ih1, ih2, ih3⟩ := ih (a.1 + value, a.2.1 + 1, a.2.2)
            dsimp only at ih1 ih2 ih3
            rw [hfold, hsx, hbuy, hsell, hc1, hc2, ih1, ih2, ih3]
            exact ⟨by ring, by push_cast; ring, rfl⟩
          · by_cases hs : op = "sell"
            · subst hs
              have hsx : transStep a x = (a.1 - value, a.2.1 + 1, a.2.2) := by
                simp [transStep, h]
              have hbuy : opTotal "buy" (x :: t) = opTotal "buy" t := by
                simp [opTotal, h]
              have hsell : opTotal "sell" (x :: t) = value + opTotal "sell" t := by
                simp [opTotal, h]
              obtain ⟨ih1, ih2, ih3⟩ := ih (a.1 - value, a.2.1 + 1, a.2.2)
              dsimp only at ih1 ih2 ih3
              rw [hfold, hsx, hbuy, hsell, hc1, hc2, ih1, ih2, ih3]
              exact ⟨by ring, by push_cast; ring, rfl⟩
            · have hsx : transStep a x = (a.1, a.2.1 + 1, a.2.2) := by
                simp [transStep, h, hb, hs]
              have hbuy : opTotal "buy" (x :: t) = opTotal "buy" t := by
                simp [opTotal, h, hb]
              have hsell : opTotal "sell" (x :: t) = opTotal "sell" t := by
                simp [opTotal, h, hs]
              obtain ⟨ih1, ih2, ih3⟩ := ih (a.1, a.2.1 + 1, a.2.2)
              dsimp only at ih1 ih2 ih3
              rw [hfold, hsx, hbuy, hsell, hc1, hc2, ih1, ih2, ih3]
              exact ⟨rfl, by push_cast; ring, rfl⟩
      | error e =>
          have hsx : transStep a x = (a.1, a.2.1, a.2.2 + 1) := by
            simp [transStep, h]
          obtain ⟨ih1, ih2, ih3⟩ := ih (a.1, a.2.1, a.2.2 + 1)
          dsimp only at ih1 ih2 ih3
          have hbuy : opTotal "buy" (x :: t) = opTotal "buy" t := by
            simp [opTotal, h]
          have hsell : opTotal "sell" (x :: t) = opTotal "sell" t := by
            simp [opTotal, h]
          have hc1 : (x :: t).countP transParseOk = t.countP transParseOk := by
            simp [List.countP_cons, transParseOk, h]
          have hc2 : ((x :: t).countP fun s => !transParseOk s) =
              (t.countP fun s => !transParseOk s) + 1 := by
            simp [List.countP_cons, transParseOk, h]
          rw [hfold, hsx, hbuy, hsell, hc1, hc2, ih1, ih2, ih3]
          exact ⟨rfl, rfl, by push_cast; ring⟩

theorem event_foldl (l : List String) (a : Int × Int) :
    (l.foldl eventStep a).1 = a.1 + (l.length : ℕ) ∧
    (l.foldl eventStep a).2 = a.2 + (l.countP containsErrorLower : ℕ) := by
  induction l generalizing a with
  | nil => simp
  | cons x t ih =>
      have hfold : List.foldl eventStep a (x :: t) =
          List.foldl eventStep (eventStep a x) t := rfl
      have hsx : eventStep a x =
          (a.1 + 1, if containsErrorLower x then a.2 + 1 else a.2) := rfl
      obtain ⟨ih1, ih2⟩ := ih (a.1 + 1, if containsErrorLower x then a.2 + 1 else a.2)
      dsimp only at ih1 ih2
      rw [hfold, hsx, ih1, ih2, List.length_cons, List.countP_cons]
      constructor
      · push_cast; ring
      · by_cases hx : containsErrorLower x = true
        · rw [if_pos hx, if_pos hx]
          push_cast; ring
        · rw [if_neg hx, if_neg hx]
          push_cast; ring

theorem trans_filter_eq (b : List Value) :
    TransactionStream.filter_data b = b.filterMap transKeeps := by
  induction b with
  | nil => rfl
  | cons x t ih =>
      simp only [TransactionStream.filter_data, DataStream.filter_data] at ih ⊢
      cases x with
      | vStr s =>
          cases h2 : transKeeps (.vStr s) with
          | none => simp [List.filter_cons, List.filterMap_cons, h2, ih]
          | some y => simp [List.filter_cons, List.filterMap_cons, h2, ih]
      | vNone => simp [List.filter_cons, List.filterMap_cons, transKeeps, ih]
      | vInt n => simp [List.filter_cons, List.filterMap_cons, transKeeps, ih]
      | vFloat q => simp [List.filter_cons, List.filterMap_cons, transKeeps, ih]
      | vList l => simp [List.filter_cons, List.filterMap_cons, transKeeps, ih]

theorem trans_stats (st : StreamState) (batch : List Value) :
    dictGet (TransactionStream.process_batch st batch).1.stats .net_flow =
      some (.sInt (opTotal "buy" (TransactionStream.filter_data batch) -
        opTotal "sell" (TransactionStream.filter_data batch))) ∧
    dictGet (TransactionStream.process_batch st batch).1.stats .count =
      some (.sInt ((TransactionStream.filter_data batch).countP transParseOk : ℕ)) ∧
    dictGet (TransactionStream.process_batch st batch).1.stats .errors =
      some (.sInt ((TransactionStream.filter_data batch).countP
        (fun s => !transParseOk s) : ℕ)) := by
  obtain ⟨h1, h2, h3⟩ := trans_foldl (TransactionStream.filter_data batch) (0, 0, 0)
  dsimp only at h1 h2 h3
  simp only [TransactionStream.process_batch]
  refine ⟨?_, ?_, ?_⟩
  · rw [dictGet_insert_other _ (by decide) _, dictGet_insert_same, h1]
    norm_num
  · rw [dictGet_insert_same, h2]
    norm_num
  · rw [dictGet_insert_other _ (by decide) _, dictGet_insert_other _ (by decide) _,
      dictGet_insert_same, h3]
    norm_num

/-- C5: `TransactionStream.process_batch` keeps exactly the batch entries
that are strings beginning with `"buy:"` or `"sell:"`; `net_flow` is the
sum of the parsed buy values minus the sum of the parsed sell values,
`count` the number of kept entries that parse, `errors` the number of kept
entries whose parse fails; the demonstration batch
`["buy:100", "sell:150", "buy:75"]` yields `net_flow = 25`, `count = 3`,
`errors = 0`. -/
theorem claim_C5 :
    (∀ batch : List Value,
      TransactionStream.filter_data batch = batch.filterMap transKeeps) ∧
    (∀ (st : StreamState) (batch : List Value),
      dictGet (TransactionStream.process_batch st batch).1.stats .net_flow =
        some (.sInt (opTotal "buy" (TransactionStream.filter_data batch) -
          opTotal "sell" (TransactionStream.filter_data batch))) ∧
      dictGet (TransactionStream.process_batch st batch).1.stats .count =
        some (.sInt ((TransactionStream.filter_data batch).countP transParseOk : ℕ)) ∧
      dictGet (TransactionStream.process_batch st batch).1.stats .errors =
        some (.sInt ((TransactionStream.filter_data batch).countP
          (fun s => !transParseOk s) : ℕ))) ∧
    (dictGet (TransactionStream.process_batch ⟨"TRANS_001", []⟩ demoTransBatch).1.stats
        .net_flow = some (.sInt 25) ∧
     dictGet (TransactionStream.process_batch ⟨"TRANS_001", []⟩ demoTransBatch).1.stats
        .count = some (.sInt 3) ∧
     dictGet (TransactionStream.process_batch ⟨"TRANS_001", []⟩ demoTransBatch).1.stats
        .errors = some (.sInt 0)) :=
  ⟨trans_filter_eq, trans_stats, rfl, rfl, rfl⟩

theorem sensor_process_error (st : StreamState) (batch : List Value) (e : PyError)
    (h : SensorStream.readValue (batch.headD (.vInt 0)) = .error e) :
    SensorStream.process_batch st batch =
      ({ st with stats := dictInsert st.stats .last_batch (.sBatch batch) }, some e) := by
  simp only [SensorStream.process_batch, h]

theorem sensor_process_ok (st : StreamState) (batch : List Value) (q : ℚ)
    (h : SensorStream.readValue (batch.headD (.vInt 0)) = .ok q) :
    (SensorStream.process_batch st batch).2 = none ∧
    dictGet (SensorStream.process_batch st batch).1.stats .average =
      some (.sFloat q) ∧
    dictGet (SensorStream.process_batch st batch).1.stats .count =
      some (.sInt ((SensorStream.filter_data batch).countP
        (fun v => exceptOk (SensorStream.readValue v)) : ℕ)) ∧
    dictGet (SensorStream.process_batch st batch).1.stats .errors =
      some (.sInt ((SensorStream.filter_data batch).countP
        (fun v => !exceptOk (SensorStream.readValue v)) : ℕ)) := by
  obtain ⟨h1, h2⟩ := sensor_foldl (SensorStream.filter_data batch) (0, 0, 0)
  dsimp only at h1 h2
  simp only [SensorStream.process_batch, h]
  refine ⟨trivial, ?_, ?_, ?_⟩
  · rw [dictGet_insert_same]
  · rw [dictGet_insert_other _ (by decide) _, dictGet_insert_other _ (by decide) _,
      dictGet_insert_same, h1]
    norm_num
  · rw [dictGet_insert_other _ (by decide) _, dictGet_insert_same, h2]
    norm_num

theorem event_stats (st : StreamState) (batch : List Value) :
    (EventStream.process_batch st batch).2 = none ∧
    dictGet (EventStream.process_batch st batch).1.stats .count =
      some (.sInt ((EventStream.filter_data batch).length : ℕ)) ∧
    dictGet (EventStream.process_batch st batch).1.stats .errors =
      some (.sInt ((EventStream.filter_data batch).countP containsErrorLower : ℕ)) := by
  obtain ⟨h1, h2⟩ := event_foldl (EventStream.filter_data batch) (0, 0)
  dsimp only at h1 h2
  simp only [EventStream.process_batch]
  refine ⟨trivial, ?_, ?_⟩
  · rw [dictGet_insert_other _ (by decide) _, dictGet_insert_same, h1]
    norm_num
  · rw [dictGet_insert_same, h2]
    norm_num

/-- C4: after a completing `SensorStream.process_batch` on a non-empty
batch, the `average` stats entry is the converted value of the first raw
batch element (the part after `":"` when it is a string containing `":"`,
the element itself otherwise — this conversion is `SensorStream.readValue`)
and not the mean of the accumulated parsed values; the demonstration batch
`["temp:22.5", "humidity:65", "pressure:1013"]` yields `count = 3`,
`errors = 0` and `average = 22.5`, which differs from the mean
`(22.5 + 65 + 1013) / 3` of the parsed values. -/
theorem claim_C4 :
    (∀ (st : StreamState) (batch : List Value) (q : ℚ), batch ≠ [] →
      SensorStream.readValue (batch.headD (.vInt 0)) = .ok q →
      dictGet (SensorStream.process_batch st batch).1.stats .average =
        some (.sFloat q)) ∧
    dictGet (SensorStream.process_batch ⟨"SENSOR_001", []⟩ demoSensorBatch).1.stats
      .count = some (.sInt 3) ∧
    dictGet (SensorStream.process_batch ⟨"SENSOR_001", []⟩ demoSensorBatch).1.stats
      .errors = some (.sInt 0) ∧
    dictGet (SensorStream.process_batch ⟨"SENSOR_001", []⟩ demoSensorBatch).1.stats
      .average = some (.sFloat (mkRat 45 2)) ∧
    (mkRat 45 2 : ℚ) = 45 / 2 ∧
    (mkRat 45 2 : ℚ) ≠ (mkRat 45 2 + 65 + 1013) / 3 := by
  refine ⟨fun st batch q _ h => (sensor_process_ok st batch q h).2.1,
    rfl, rfl, rfl, ?_, ?_⟩
  · rw [Rat.mkRat_eq_div]
    norm_num
  · rw [Rat.mkRat_eq_div]
    norm_num

/-- C4 (witness): the demonstration batch instantiates the universal part:
its first element converts to `22.5` and the `average` entry equals it. -/
theorem claim_C4_witness :
    demoSensorBatch ≠ [] ∧
    SensorStream.readValue (demoSensorBatch.headD (.vInt 0)) = .ok (mkRat 45 2) ∧
    dictGet (SensorStream.process_batch ⟨"SENSOR_001", []⟩ demoSensorBatch).1.stats
      .average = some (.sFloat (mkRat 45 2)) := by
  refine ⟨by simp [demoSensorBatch], rfl,
    claim_C4.1 ⟨"SENSOR_001", []⟩ demoSensorBatch (mkRat 45 2) (by simp [demoSensorBatch]) rfl⟩

/-- C2 (counterexample): `SensorStream.process_batch` *can* raise: on the
batch `["abc"]` the average computation applies `float` to the first raw
element outside the per-item `try`, and `float("abc")` raises a
`ValueError` that propagates out of `process_batch`. -/
theorem claim_C2_counterexample :
    (SensorStream.process_batch ⟨"SENSOR_001", []⟩ [.vStr "abc"]).2 =
      some .valueError := rfl

/-- C2 (amended): `TransactionStream.process_batch` and
`EventStream.process_batch` never raise, and each malformed item among the
filtered items increments the error counter while processing continues;
`SensorStream.process_batch` counts malformed filtered items the same way,
but completes without raising exactly when the conversion of the first raw
batch element (used for the `average`) succeeds — otherwise that
`ValueError`/`TypeError` propagates. -/
theorem claim_C2_amended (st : StreamState) (batch : List Value) :
    (TransactionStream.process_batch st batch).2 = none ∧
    (EventStream.process_batch st batch).2 = none ∧
    ((SensorStream.process_batch st batch).2 = none ↔
      ∃ q, SensorStream.readValue (batch.headD (.vInt 0)) = .ok q) ∧
    dictGet (TransactionStream.process_batch st batch).1.stats .errors =
      some (.sInt ((TransactionStream.filter_data batch).countP
        (fun s => !transParseOk s) : ℕ)) ∧
    (∀ q : ℚ, SensorStream.readValue (batch.headD (.vInt 0)) = .ok q →
      dictGet (SensorStream.process_batch st batch).1.stats .errors =
        some (.sInt ((SensorStream.filter_data batch).countP
          (fun v => !exceptOk (SensorStream.readValue v)) : ℕ))) := by
  refine ⟨rfl, rfl, ?_, (trans_stats st batch).2.2,
    fun q h => (sensor_process_ok st batch q h).2.2.2⟩
  constructor
  · intro hn
    cases h : SensorStream.readValue (batch.headD (.vInt 0)) with
    | ok q => exact ⟨q, rfl⟩
    | error e =>
        rw [sensor_process_error st batch e h] at hn
        simp at hn
  · rintro ⟨q, h⟩
    exact (sensor_process_ok st batch q h).1

/-- C2 (witness): on the demonstration batch the sensor's first-element
conversion succeeds, so `process_batch` completes without raising. -/
theorem claim_C2_witness :
    (SensorStream.process_batch ⟨"SENSOR_001", []⟩ demoSensorBatch).2 = none :=
  (claim_C2_amended ⟨"SENSOR_001", []⟩ demoSensorBatch).2.2.1.mpr ⟨mkRat 45 2, rfl⟩

theorem sensor_overwrite1 (id : String) (v1 : StatVal) (b : List Value) (q : ℚ)
    (h : SensorStream.readValue (b.headD (.vInt 0)) = .ok q) :
    (SensorStream.process_batch ⟨id, [(.last_batch, v1)]⟩ b).1 =
      (SensorStream.process_batch ⟨id, []⟩ b).1 := by
  simp only [SensorStream.process_batch, h]
  rfl

theorem sensor_overwrite4 (id : String) (v1 v2 v3 v4 : StatVal) (b : List Value) (q : ℚ)
    (h : SensorStream.readValue (b.headD (.vInt 0)) = .ok q) :
    (SensorStream.process_batch ⟨id, [(.last_batch, v1), (.count, v2),
        (.errors, v3), (.average, v4)]⟩ b).1 =
      (SensorStream.process_batch ⟨id, []⟩ b).1 := by
  simp only [SensorStream.process_batch, h]
  rfl

/-- C6 (counterexample): processing `[2]` and then `["abc"]` on one sensor
instance does not leave the same stats as processing only `["abc"]` on a
fresh instance: the second batch raises while computing the average, so the
`count`/`errors`/`average` entries left by the first batch survive (four
entries versus one). -/
theorem claim_C6_counterexample :
    ((SensorStream.process_batch (SensorStream.process_batch ⟨"SENSOR_001", []⟩
        [.vInt 2]).1 [.vStr "abc"]).1.stats).length = 4 ∧
    ((SensorStream.process_batch ⟨"SENSOR_001", []⟩ [.vStr "abc"]).1.stats).length = 1 ∧
    (SensorStream.process_batch (SensorStream.process_batch ⟨"SENSOR_001", []⟩
        [.vInt 2]).1 [.vStr "abc"]).1.stats ≠
      (SensorStream.process_batch ⟨"SENSOR_001", []⟩ [.vStr "abc"]).1.stats :=
  ⟨rfl, rfl, fun h => absurd (congrArg List.length h) (by decide)⟩

/-- C6 (amended): for every stream variant, stream id and pair of batches,
if processing `b2` (after `b1`) completes without raising — always the
case for Transaction and Event, and for Sensor exactly when the
first-element conversion succeeds — the resulting stats equal those of
processing only `b2` on a freshly constructed instance with the same
stream id; when Sensor raises, stale entries from `b1` remain. -/
theorem claim_C6_amended (k : StreamKind) (id : String) (b1 b2 : List Value)
    (h : (processBatch k (processBatch k ⟨id, []⟩ b1).1 b2).2 = none) :
    (processBatch k (processBatch k ⟨id, []⟩ b1).1 b2).1 =
      (processBatch k ⟨id, []⟩ b2).1 := by
  cases k with
  | transaction => rfl
  | event => rfl
  | sensor =>
      simp only [processBatch] at h ⊢
      cases h2 : SensorStream.readValue (b2.headD (.vInt 0)) with
      | error e =>
          rw [sensor_process_error _ b2 e h2] at h
          simp at h
      | ok q2 =>
          cases h1 : SensorStream.readValue (b1.headD (.vInt 0)) with
          | error e1 =>
              rw [sensor_process_error _ b1 e1 h1]
              exact sensor_overwrite1 id (.sBatch b1) b2 q2 h2
          | ok q1 =>
              have e1 : SensorStream.process_batch ⟨id, []⟩ b1 =
                  (⟨id, [(.last_batch, .sBatch b1),
                    (.count, .sInt ((SensorStream.filter_data b1).foldl
                      sensorStep (0, 0, 0)).2.1),
                    (.errors, .sInt ((SensorStream.filter_data b1).foldl
                      sensorStep (0, 0, 0)).2.2),
                    (.average, .sFloat q1)]⟩, none) := by
                simp only [SensorStream.process_batch, h1]
                rfl
              rw [e1]
              exact sensor_overwrite4 id _ _ _ _ b2 q2 h2

/-- C6 (witness): the amended claim at a Transaction stream with two empty
batches. -/
theorem claim_C6_witness :
    (processBatch .transaction (processBatch .transaction ⟨"TRANS_001", []⟩ []).1 []).2 =
      none ∧
    (processBatch .transaction (processBatch .transaction ⟨"TRANS_001", []⟩ []).1 []).1 =
      (processBatch .transaction ⟨"TRANS_001", []⟩ []).1 :=
  ⟨rfl, claim_C6_amended .transaction "TRANS_001" [] [] rfl⟩

/-- C8 (counterexample): `process_all` does not always invoke every
registered stream: with a sensor registered before an event stream and a
sensor batch whose first element fails to convert, the sensor raises, the
exception propagates out of `process_all`, and the event stream is never
invoked (its stats stay empty, whereas processing its — absent, hence
empty — batch would have created three entries). -/
theorem claim_C8_counterexample :
    (StreamProcessor.process_all
        [⟨.sensor, ⟨"SENSOR_001", []⟩⟩, ⟨.event, ⟨"EVENT_001", []⟩⟩]
        [("SENSOR_001", [.vStr "abc"])]).2 = some .valueError ∧
    (StreamProcessor.process_all
        [⟨.sensor, ⟨"SENSOR_001", []⟩⟩, ⟨.event, ⟨"EVENT_001", []⟩⟩]
        [("SENSOR_001", [.vStr "abc"])]).1.map
      (fun s => s.state.stats.length) = [1, 0] ∧
    (processBatch .event ⟨"EVENT_001", []⟩
      (batchesGet [("SENSOR_001", [.vStr "abc"])] "EVENT_001")).1.stats.length = 3 :=
  ⟨rfl, rfl, rfl⟩

/-- C8 (amended): whenever no `process_batch` call raises (always true
unless a Sensor stream's first-element conversion fails), `process_all`
invokes `process_batch` exactly once on each registered stream in
registration order, passing the batch found in the mapping under the
stream's id, or the empty sequence when absent. -/
theorem claim_C8_amended (streams : List StreamObj) (m : List (String × List Value))
    (h : (StreamProcessor.process_all streams m).2 = none) :
    (StreamProcessor.process_all streams m).1 =
      streams.map (fun s =>
        ⟨s.kind, (processBatch s.kind s.state (batchesGet m s.state.stream_id)).1⟩) := by
  induction streams with
  | nil => rfl
  | cons s rest ih =>
      cases hr : (processBatch s.kind s.state (batchesGet m s.state.stream_id)).2 with
      | some e =>
          simp only [StreamProcessor.process_all, hr] at h
          exact absurd h (by simp)
      | none =>
          simp only [StreamProcessor.process_all, hr] at h ⊢
          simp only [List.map_cons]
          rw [ih h]

/-- C8 (witness): the amended claim at a registry holding one event stream
and an empty batch mapping. -/
theorem claim_C8_witness :
    (StreamProcessor.process_all [⟨.event, ⟨"EVENT_001", []⟩⟩] []).2 = none ∧
    (StreamProcessor.process_all [⟨.event, ⟨"EVENT_001", []⟩⟩] []).1 =
      [⟨.event, (processBatch .event ⟨"EVENT_001", []⟩ (batchesGet [] "EVENT_001")).1⟩] :=
  ⟨rfl, claim_C8_amended [⟨.event, ⟨"EVENT_001", []⟩⟩] [] rfl⟩
